import Mathlib

/-!
Verification of the worldbook plugin core (entry activation gates, session
cache, lorefile round-trip) against a shallow embedding of the source.

Conventions of the embedding:
- Probabilities (floats compared against a uniform sample) are modelled as
  rationals; only order comparisons occur, which rationals reproduce.
- Timestamps are modelled as integer seconds: the code only adds integer
  durations to timestamps and compares the results, which integers preserve.
- The regular-expression engine is external to the repository, so a compiled
  pattern is modelled as a text predicate and compilation as an oracle
  returning an optional predicate (compilation failure yields none).
- Randomness is modelled as a sample stream together with an explicit count
  of how many samples a decision consumed.
-/

/-- Mirror of the Template enum in core/template.py. -/
inductive Template where
  | default
  | resident
  | chance
  | user
  | group
deriving DecidableEq, Repr

/-- Template -> its string value, as in core/template.py. -/
def Template.str : Template → String
  | .default => "default"
  | .resident => "resident"
  | .chance => "chance"
  | .user => "user"
  | .group => "group"

/-- String -> Template; none models the ValueError branch of Template.from_data. -/
def Template.of_string : String → Option Template
  | "default" => some .default
  | "resident" => some .resident
  | "chance" => some .chance
  | "user" => some .user
  | "group" => some .group
  | _ => none

/-- Template.defaults()["priority"] in core/template.py. -/
def Template.def_priority : Template → Int
  | .default => 50
  | .resident => 20
  | .chance => 1
  | .user => 120
  | .group => 110

/-- Template.defaults()["keywords"] in core/template.py. -/
def Template.def_keywords : Template → List String
  | .default => []
  | _ => [".*"]

/-- Template.defaults()["duration"] in core/template.py (chance inherits the base 180). -/
def Template.def_duration : Template → Int
  | .default => 180
  | .resident => 0
  | .chance => 180
  | .user => 0
  | .group => 0

/-- Template.defaults()["times"] in core/template.py. -/
def Template.def_times : Template → Int
  | .default => 5
  | .resident => 0
  | .chance => 1
  | .user => 0
  | .group => 0

/-- State of a LoreEntry (core/entry.py): the configuration fields plus the
runtime fields activated_at, inject_count, cron_fired_at and the compiled
pattern cache. A compiled pattern is a text predicate (its search function). -/
structure LoreEntry where
  template : Template
  name : String
  enabled : Bool
  priority : Int
  scope : List String
  keywords : List String
  probability : ℚ
  cron : String
  content : String
  duration : Int
  times : Int
  activated_at : Option Int
  inject_count : Nat
  cron_fired_at : Option Int
  patterns : List (String → Bool)

/-- Truthiness of an optional Python string: none and the empty string are falsy. -/
def opt_truthy : Option String → Bool
  | none => false
  | some s => !(s == "")

/-- Python k.strip() truthiness: the string holds some non-whitespace character. -/
def keyword_nonblank (k : String) : Bool :=
  k.toList.any (fun c => !c.isWhitespace)

/-- LoreEntry._compile_patterns: drops blank keywords (mutating self.keywords),
then compiles the survivors, skipping the ones the oracle rejects. There is no
fallback when nothing survives. -/
def LoreEntry.compile_patterns (cre : String → Option (String → Bool))
    (e : LoreEntry) : LoreEntry :=
  let kws := e.keywords.filter keyword_nonblank
  { e with keywords := kws, patterns := kws.filterMap cre }

/-- LoreEntry.__init__: populate the configuration fields, zero the runtime
fields, compile the patterns. -/
def mk_lore_entry (cre : String → Option (String → Bool)) (template : Template)
    (name : String) (enabled : Bool) (priority : Int) (scope : List String)
    (keywords : List String) (probability : ℚ) (cron : String)
    (content : String) (duration : Int) (times : Int) : LoreEntry :=
  LoreEntry.compile_patterns cre
    { template := template, name := name, enabled := enabled,
      priority := priority, scope := scope, keywords := keywords,
      probability := probability, cron := cron, content := content,
      duration := duration, times := times, activated_at := none,
      inject_count := 0, cron_fired_at := none, patterns := [] }

/-- LoreEntry._match_keywords: some compiled pattern matches the text. -/
def LoreEntry.match_keywords (e : LoreEntry) (text : String) : Bool :=
  e.patterns.any (fun p => p text)

/-- LoreEntry.active: activated, not past duration, not out of times. -/
def LoreEntry.active (now : Int) (e : LoreEntry) : Bool :=
  match e.activated_at with
  | none => false
  | some t =>
    if e.duration > 0 ∧ now > t + e.duration then false
    else if e.times > 0 ∧ (e.inject_count : Int) ≥ e.times then false
    else true

/-- LoreEntry.enabled_keywords: the compiled pattern cache is nonempty. -/
def LoreEntry.enabled_keywords (e : LoreEntry) : Bool :=
  !e.patterns.isEmpty

/-- Python str.split() with no argument: split on whitespace, drop empties. -/
def py_split_ws (s : String) : List String :=
  (s.split (fun c => c.isWhitespace)).filter (fun t => !(t == ""))

/-- LoreEntry.enabled_cron: enabled and the cron string has 5 fields. -/
def LoreEntry.enabled_cron (e : LoreEntry) : Bool :=
  e.enabled && (py_split_ws e.cron).length == 5

/-- LoreEntry.in_cron_window: a cron firing opened a window that now lies in;
duration at most 0 keeps the window open forever. -/
def LoreEntry.in_cron_window (now : Int) (e : LoreEntry) : Bool :=
  if !e.enabled_cron then false
  else
    match e.cron_fired_at with
    | none => false
    | some t =>
      if e.duration ≤ 0 then true
      else decide (now ≤ t + e.duration)

/-- LoreEntry._allow_scope: empty scope allows everyone, otherwise some token
must match admin status or a truthy id. -/
def LoreEntry.allow_scope (e : LoreEntry) (user_id group_id session_id : Option String)
    (is_admin : Bool) : Bool :=
  if e.scope.isEmpty then true
  else
    e.scope.any (fun s =>
      (s == "admin" && is_admin)
      || (opt_truthy user_id && s == user_id.getD "")
      || (opt_truthy group_id && s == group_id.getD "")
      || (opt_truthy session_id && s == session_id.getD ""))

/-- LoreEntry._has_text_token: truthy text, some compiled pattern, and a match. -/
def LoreEntry.has_text_token (e : LoreEntry) (text : Option String) : Bool :=
  if !opt_truthy text then false
  else if !e.enabled_keywords then false
  else e.match_keywords (text.getD "")

/-- LoreEntry._satisfy_probability, with the random draws made countable: the
result plus how many uniform samples were consumed. -/
def LoreEntry.satisfy_probability (e : LoreEntry) (rng : Nat → ℚ) : Bool × Nat :=
  if e.probability ≥ 1 then (true, 0)
  else if e.probability ≤ 0 then (false, 0)
  else (decide (rng 0 < e.probability), 1)

/-- LoreEntry.check_activate: the four sequential gates of core/entry.py, each
returning early on failure; the draw count reports consumed randomness. -/
def LoreEntry.check_activate (e : LoreEntry) (text user_id group_id session_id : Option String)
    (is_admin : Bool) (now : Int) (rng : Nat → ℚ) : Bool × Nat :=
  if !e.enabled then (false, 0)
  else if !e.allow_scope user_id group_id session_id is_admin then (false, 0)
  else if !e.has_text_token text && !e.in_cron_window now then (false, 0)
  else e.satisfy_probability rng

/-- LoreEntry.enter_session: stamp the activation time. -/
def LoreEntry.enter_session (now : Int) (e : LoreEntry) : LoreEntry :=
  { e with activated_at := some now }

/-- LoreEntry.on_consume: count one injection. -/
def LoreEntry.on_consume (e : LoreEntry) : LoreEntry :=
  { e with inject_count := e.inject_count + 1 }

/-- LoreEntry.on_cron_triggered: record the firing time. -/
def LoreEntry.on_cron_triggered (t : Int) (e : LoreEntry) : LoreEntry :=
  { e with cron_fired_at := some t }

/-- Modelled from the spec: LoreEntry.on_activated is invoked from main.py on
every activated entry but is not defined under src; per the spec it clears the
schedule-triggered flag, a one-shot eligibility token consumed on success. -/
def LoreEntry.on_activated (e : LoreEntry) : LoreEntry :=
  { e with cron_fired_at := none }

/-- Modelled from the spec: LoreEntry.remove_scope is called by
Lorebook.remove_scope_from_entry but is not defined under src; per the spec,
removing a scope token never leaves scope empty: removing the last token
reinstates the admin token. Returns the updated entry and whether it changed. -/
def LoreEntry.remove_scope (e : LoreEntry) (tok : String) : LoreEntry × Bool :=
  if tok ∈ e.scope then
    let s := e.scope.erase tok
    ({ e with scope := if s = [] then ["admin"] else s }, true)
  else (e, false)

/-- C1: check_activate evaluates enabled, scope, keyword-or-schedule
eligibility and probability in that order, short-circuiting on the first
failing gate; the probability gate draws zero uniform samples whenever an
earlier gate fails, and once reached a probability of at least 1 passes
without drawing while a probability of at most 0 fails without drawing. -/
theorem check_activate_gate_order (e : LoreEntry)
    (text user_id group_id session_id : Option String) (is_admin : Bool)
    (now : Int) (rng : Nat → ℚ) :
    e.check_activate text user_id group_id session_id is_admin now rng =
      (if e.enabled && e.allow_scope user_id group_id session_id is_admin
          && (e.has_text_token text || e.in_cron_window now)
        then e.satisfy_probability rng else (false, 0))
    ∧ (e.satisfy_probability rng).2 =
        (if e.probability ≥ 1 ∨ e.probability ≤ 0 then 0 else 1)
    ∧ (e.probability ≥ 1 → (e.satisfy_probability rng).1 = true)
    ∧ (e.probability ≤ 0 → (e.satisfy_probability rng).1 = false) := by
  refine ⟨?_, ?_, ?_, ?_⟩
  · unfold LoreEntry.check_activate
    cases he : e.enabled <;>
      cases hs : e.allow_scope user_id group_id session_id is_admin <;>
        cases ht : e.has_text_token text <;>
          cases hc : e.in_cron_window now <;> simp
  · unfold LoreEntry.satisfy_probability
    by_cases h1 : e.probability ≥ 1 <;> by_cases h0 : e.probability ≤ 0 <;>
      simp [h1, h0]
  · intro h1
    unfold LoreEntry.satisfy_probability
    simp [h1]
  · intro h0
    unfold LoreEntry.satisfy_probability
    have h1 : ¬ e.probability ≥ 1 := by
      intro hge
      have : (1 : ℚ) ≤ 0 := le_trans hge h0
      norm_num at this
    simp [h1, h0]

/-- Insertion-order key-value map, mirroring the semantics of a Python dict:
assigning to an existing key replaces the value in place, a new key is
appended at the end. -/
def py_dict_set {K V : Type} [BEq K] (m : List (K × V)) (k : K) (v : V) :
    List (K × V) :=
  if (m.map Prod.fst).contains k then
    m.map (fun p => if p.1 == k then (k, v) else p)
  else m ++ [(k, v)]

/-- Python dict comprehension over a list, keyed by a function: later items
with the same key overwrite earlier ones. -/
def py_dict_of {K V : Type} [BEq K] (key : V → K) (l : List V) : List (K × V) :=
  l.foldl (fun m e => py_dict_set m (key e) e) []

/-- Python dict.update: fold the items of the second dict into the first. -/
def py_dict_update {K V : Type} [BEq K] (m items : List (K × V)) :
    List (K × V) :=
  items.foldl (fun acc kv => py_dict_set acc kv.1 kv.2) m

/-- The priority order used by list.sort(key=lambda x: x.priority). -/
def prio_le (a b : LoreEntry) : Prop := a.priority ≤ b.priority

instance : DecidableRel prio_le :=
  fun a b => inferInstanceAs (Decidable (a.priority ≤ b.priority))

instance : IsTotal LoreEntry prio_le := ⟨fun a b => le_total a.priority b.priority⟩

instance : IsTrans LoreEntry prio_le := ⟨fun _ _ _ h h2 => le_trans h h2⟩

/-- SessionCache._data: conversation id -> the list of attached entries.
Python Timsort is a stable sort, so it is modelled by insertion sort on the
priority order, which computes the same list. -/
def SessionData : Type := String → Option (List LoreEntry)

/-- SessionCache.get_sorted_active: return the active entries of the
conversation ascending by priority; as a side effect keep only the active
ones, dropping the conversation key when none remains. Returns the result
list together with the updated cache state. -/
def SessionCache.get_sorted_active (d : SessionData) (umo : String) (now : Int) :
    List LoreEntry × SessionData :=
  match d umo with
  | none => ([], d)
  | some entries =>
    if entries.isEmpty then ([], d)
    else
      let active_entries := entries.filter (LoreEntry.active now)
      if active_entries.isEmpty then
        ([], fun k => if k == umo then none else d k)
      else
        let sorted := active_entries.insertionSort prio_le
        (sorted, fun k => if k == umo then some sorted else d k)

/-- SessionCache.attach: sweep the old entries, deep-copy the candidates
(value copy here), merge by name with new over old, then, unless
allow_same_priority is set, merge by priority with new over old, store the
result and stamp every stored entry with the attach time. -/
def SessionCache.attach (allow_same_priority : Bool) (d : SessionData)
    (umo : String) (entries : List LoreEntry) (now : Int) : SessionData :=
  let swept := SessionCache.get_sorted_active d umo now
  let old_entries := swept.1
  let merged_by_name :=
    py_dict_update (py_dict_of LoreEntry.name old_entries)
      (py_dict_of LoreEntry.name entries)
  let merged := merged_by_name.map Prod.snd
  let merged2 :=
    if allow_same_priority then merged
    else (py_dict_of LoreEntry.priority merged).map Prod.snd
  fun k =>
    if k == umo then some (merged2.map (LoreEntry.enter_session now))
    else swept.2 k

/-- SessionCache.remove: drop the named entries from the conversation,
dropping the key when nothing remains; returns the removed names too. -/
def SessionCache.remove (d : SessionData) (umo : String) (names : List String) :
    List String × SessionData :=
  match d umo with
  | none => ([], d)
  | some entries =>
    if entries.isEmpty then ([], d)
    else
      let remain := entries.filter (fun e => !(names.contains e.name))
      let removed := (entries.filter (fun e => names.contains e.name)).map LoreEntry.name
      if remain.isEmpty then
        (removed, fun k => if k == umo then none else d k)
      else
        (removed, fun k => if k == umo then some remain else d k)

/-- SessionCache.clear: unconditionally drop the conversation key. -/
def SessionCache.clear (d : SessionData) (umo : String) : SessionData :=
  fun k => if k == umo then none else d k

@[simp]
theorem enter_session_name (now : Int) (e : LoreEntry) :
    (e.enter_session now).name = e.name := rfl

@[simp]
theorem enter_session_priority (now : Int) (e : LoreEntry) :
    (e.enter_session now).priority = e.priority := rfl

@[simp]
theorem enter_session_inject_count (now : Int) (e : LoreEntry) :
    (e.enter_session now).inject_count = e.inject_count := rfl

@[simp]
theorem enter_session_activated_at (now : Int) (e : LoreEntry) :
    (e.enter_session now).activated_at = some now := rfl

theorem mem_py_dict_set {K V : Type} [BEq K] [LawfulBEq K] {m : List (K × V)}
    {k : K} {v : V} {p : K × V} (h : p ∈ py_dict_set m k v) :
    p = (k, v) ∨ (p ∈ m ∧ p.1 ≠ k) := by
  unfold py_dict_set at h
  split at h
  case isTrue hc =>
    obtain ⟨q, hq, hqe⟩ := List.mem_map.mp h
    by_cases hk : q.1 == k
    · rw [if_pos hk] at hqe
      exact Or.inl hqe.symm
    · rw [if_neg hk] at hqe
      refine Or.inr ⟨hqe ▸ hq, ?_⟩
      rw [← hqe]
      simpa using hk
  case isFalse hc =>
    rcases List.mem_append.mp h with h1 | h2
    · have hc2 : k ∉ m.map Prod.fst := by simpa using hc
      refine Or.inr ⟨h1, fun hk => hc2 ?_⟩
      exact hk ▸ List.mem_map_of_mem Prod.fst h1
    · exact Or.inl (by simpa using h2)

theorem py_dict_set_keys_self {K V : Type} [BEq K] [LawfulBEq K]
    (m : List (K × V)) (k : K) (v : V) :
    k ∈ (py_dict_set m k v).map Prod.fst := by
  unfold py_dict_set
  split
  case isTrue hc =>
    have hk : k ∈ m.map Prod.fst := by simpa using hc
    obtain ⟨q, hq, hqe⟩ := List.mem_map.mp hk
    refine List.mem_map.mpr ⟨(k, v), ?_, rfl⟩
    refine List.mem_map.mpr ⟨q, hq, ?_⟩
    rw [if_pos (by simp [hqe])]
  case isFalse hc => simp

theorem py_dict_set_keys_mono {K V : Type} [BEq K] [LawfulBEq K]
    {m : List (K × V)} {k0 : K} (k : K) (v : V) (h : k0 ∈ m.map Prod.fst) :
    k0 ∈ (py_dict_set m k v).map Prod.fst := by
  unfold py_dict_set
  split
  case isTrue hc =>
    obtain ⟨q, hq, hqe⟩ := List.mem_map.mp h
    by_cases hk : q.1 == k
    · refine List.mem_map.mpr ⟨(k, v), List.mem_map.mpr ⟨q, hq, by rw [if_pos hk]⟩, ?_⟩
      have : q.1 = k := by simpa using hk
      simp [← hqe, this]
    · exact List.mem_map.mpr ⟨q, List.mem_map.mpr ⟨q, hq, by rw [if_neg hk]⟩, hqe⟩
  case isFalse hc => simp [h]

theorem py_dict_set_keys_nodup {K V : Type} [BEq K] [LawfulBEq K]
    {m : List (K × V)} (k : K) (v : V) (h : (m.map Prod.fst).Nodup) :
    ((py_dict_set m k v).map Prod.fst).Nodup := by
  unfold py_dict_set
  split
  case isTrue hc =>
    have : (List.map (fun p => if p.1 == k then (k, v) else p) m).map Prod.fst
        = m.map Prod.fst := by
      rw [List.map_map]
      refine List.map_congr_left fun p _ => ?_
      by_cases hk : p.1 == k
      · simp only [Function.comp_apply, if_pos hk]
        exact (eq_of_beq hk).symm
      · simp only [Function.comp_apply, if_neg hk]
    rw [this]
    exact h
  case isFalse hc =>
    rw [List.map_append]
    refine List.nodup_append.mpr ⟨h, List.nodup_singleton _, ?_⟩
    intro x hx hx2
    have hxk : x = k := by simpa using hx2
    subst hxk
    have hc2 : x ∉ m.map Prod.fst := by simpa using hc
    exact hc2 hx

theorem py_dict_fold_mem {K V : Type} [BEq K] [LawfulBEq K] (key : V → K) :
    ∀ (l : List V) (m : List (K × V)) (p : K × V),
      p ∈ l.foldl (fun m e => py_dict_set m (key e) e) m →
      p ∈ m ∨ (p.1 = key p.2 ∧ p.2 ∈ l) := by
  intro l
  induction l with
  | nil => exact fun m p h => Or.inl h
  | cons a l ih =>
    intro m p h
    rcases ih (py_dict_set m (key a) a) p h with h1 | h2
    · rcases mem_py_dict_set h1 with he | ⟨hm, _⟩
      · refine Or.inr ⟨?_, ?_⟩ <;> simp [he]
      · exact Or.inl hm
    · exact Or.inr ⟨h2.1, List.mem_cons_of_mem _ h2.2⟩

theorem py_dict_of_mem {K V : Type} [BEq K] [LawfulBEq K] (key : V → K)
    (l : List V) (p : K × V) (h : p ∈ py_dict_of key l) :
    p.1 = key p.2 ∧ p.2 ∈ l := by
  rcases py_dict_fold_mem key l [] p h with h1 | h2
  · cases h1
  · exact h2

theorem py_dict_fold_keys_nodup {K V : Type} [BEq K] [LawfulBEq K] (key : V → K) :
    ∀ (l : List V) (m : List (K × V)), (m.map Prod.fst).Nodup →
      ((l.foldl (fun m e => py_dict_set m (key e) e) m).map Prod.fst).Nodup := by
  intro l
  induction l with
  | nil => exact fun m h => h
  | cons a l ih => exact fun m h => ih _ (py_dict_set_keys_nodup _ _ h)

theorem py_dict_of_keys_nodup {K V : Type} [BEq K] [LawfulBEq K] (key : V → K)
    (l : List V) : ((py_dict_of key l).map Prod.fst).Nodup :=
  py_dict_fold_keys_nodup key l [] List.nodup_nil

theorem py_dict_fold_keys_mono {K V : Type} [BEq K] [LawfulBEq K] (key : V → K) :
    ∀ (l : List V) (m : List (K × V)) (k0 : K), k0 ∈ m.map Prod.fst →
      k0 ∈ ((l.foldl (fun m e => py_dict_set m (key e) e) m).map Prod.fst) := by
  intro l
  induction l with
  | nil => exact fun m k0 h => h
  | cons a l ih => exact fun m k0 h => ih _ k0 (py_dict_set_keys_mono _ _ h)

theorem py_dict_fold_keys_complete {K V : Type} [BEq K] [LawfulBEq K] (key : V → K) :
    ∀ (l : List V) (m : List (K × V)) (e : V), e ∈ l →
      key e ∈ ((l.foldl (fun m e => py_dict_set m (key e) e) m).map Prod.fst) := by
  intro l
  induction l with
  | nil => intro m e h; cases h
  | cons a l ih =>
    intro m e h
    rcases List.mem_cons.mp h with he | hl
    · subst he
      exact py_dict_fold_keys_mono key l _ (key e) (py_dict_set_keys_self m (key e) e)
    · exact ih _ e hl

theorem py_dict_update_mem {K V : Type} [BEq K] [LawfulBEq K] :
    ∀ (items m : List (K × V)) (p : K × V), p ∈ py_dict_update m items →
      (p ∈ m ∨ p ∈ items) ∧ (p.1 ∈ items.map Prod.fst → p ∈ items) := by
  intro items
  induction items with
  | nil => exact fun m p h => ⟨Or.inl h, fun hk => absurd hk (by simp)⟩
  | cons kv rest ih =>
    intro m p h
    have hih := ih (py_dict_set m kv.1 kv.2) p h
    constructor
    · rcases hih.1 with hm1 | hr
      · rcases mem_py_dict_set hm1 with he | ⟨hm, _⟩
        · exact Or.inr (by simp [he])
        · exact Or.inl hm
      · exact Or.inr (List.mem_cons_of_mem _ hr)
    · intro hk
      by_cases hr : p.1 ∈ rest.map Prod.fst
      · exact List.mem_cons_of_mem _ (hih.2 hr)
      · have hpk : p.1 = kv.1 := by
          rw [List.map_cons] at hk
          rcases List.mem_cons.mp hk with h1 | h2
          · exact h1
          · exact absurd h2 hr
        rcases hih.1 with hm1 | hrr
        · rcases mem_py_dict_set hm1 with he | ⟨_, hne⟩
          · exact List.mem_cons.mpr (Or.inl (by simpa using he))
          · exact absurd hpk hne
        · exact absurd (List.mem_map_of_mem Prod.fst hrr) hr

theorem gsa_eq_none (d : SessionData) (umo : String) (now : Int)
    (hd : d umo = none) :
    SessionCache.get_sorted_active d umo now = ([], d) := by
  unfold SessionCache.get_sorted_active
  rw [hd]

theorem gsa_eq_some (d : SessionData) (umo : String) (now : Int)
    (l : List LoreEntry) (hd : d umo = some l) :
    SessionCache.get_sorted_active d umo now =
      if l.isEmpty then ([], d)
      else if (l.filter (LoreEntry.active now)).isEmpty then
        ([], fun k => if k == umo then none else d k)
      else ((l.filter (LoreEntry.active now)).insertionSort prio_le,
        fun k =>
          if k == umo then some ((l.filter (LoreEntry.active now)).insertionSort prio_le)
          else d k) := by
  unfold SessionCache.get_sorted_active
  rw [hd]

/-- C3: an activated entry with positive duration d is excluded from
get_sorted_active once more than d seconds have passed since activation,
and the lazy sweep removes it from the stored set; when no active entry
remains the conversation key itself is dropped. -/
theorem get_sorted_active_expiry (d : SessionData) (umo : String) (now t : Int)
    (l : List LoreEntry) (e : LoreEntry)
    (hd : d umo = some l) (hmem : e ∈ l) (hdur : e.duration > 0)
    (hact : e.activated_at = some t) (hnow : now > t + e.duration) :
    e ∉ (SessionCache.get_sorted_active d umo now).1
    ∧ (∀ l2, (SessionCache.get_sorted_active d umo now).2 umo = some l2 → e ∉ l2)
    ∧ ((∀ x ∈ l, LoreEntry.active now x = false) →
        (SessionCache.get_sorted_active d umo now).2 umo = none) := by
  have hAct : LoreEntry.active now e = false := by
    simp only [LoreEntry.active, hact]
    rw [if_pos ⟨hdur, hnow⟩]
  have hlne : ¬ (l.isEmpty = true) := by
    simp only [List.isEmpty_iff]
    exact List.ne_nil_of_mem hmem
  have hnotmem : e ∉ (l.filter (LoreEntry.active now)).insertionSort prio_le := by
    intro hin
    have := (List.mem_filter.mp ((List.mem_insertionSort prio_le).mp hin)).2
    rw [hAct] at this
    cases this
  rw [gsa_eq_some d umo now l hd, if_neg hlne]
  by_cases hfe : (l.filter (LoreEntry.active now)).isEmpty = true
  · rw [if_pos hfe]
    refine ⟨by simp, ?_, ?_⟩
    · intro l2 h2
      simp only [beq_self_eq_true, if_true] at h2
      cases h2
    · intro _
      simp only [beq_self_eq_true, if_true]
  · rw [if_neg hfe]
    refine ⟨hnotmem, ?_, ?_⟩
    · intro l2 h2
      simp only [beq_self_eq_true, if_true, Option.some.injEq] at h2
      rw [← h2]
      exact hnotmem
    · intro hall
      exfalso
      apply hfe
      simp only [List.isEmpty_iff]
      refine List.filter_eq_nil_iff.mpr fun a ha => ?_
      rw [hall a ha]
      simp

/-- C9: with no time passing and no intervening mutation, a second call to
get_sorted_active returns the same list as the first (and leaves the swept
state for the conversation unchanged); the list is ascending by priority. -/
theorem get_sorted_active_idempotent (d : SessionData) (umo : String) (now : Int) :
    (SessionCache.get_sorted_active
        (SessionCache.get_sorted_active d umo now).2 umo now).1
      = (SessionCache.get_sorted_active d umo now).1
    ∧ (SessionCache.get_sorted_active
        (SessionCache.get_sorted_active d umo now).2 umo now).2 umo
      = (SessionCache.get_sorted_active d umo now).2 umo
    ∧ List.Sorted prio_le (SessionCache.get_sorted_active d umo now).1 := by
  cases hd : d umo with
  | none =>
    rw [gsa_eq_none d umo now hd]
    rw [gsa_eq_none d umo now hd]
    simp [gsa_eq_none d umo now hd]
  | some l =>
    rw [gsa_eq_some d umo now l hd]
    by_cases hle : l.isEmpty = true
    · simp only [if_pos hle]
      rw [gsa_eq_some d umo now l hd, if_pos hle]
      simp
    · rw [if_neg hle]
      by_cases hfe : (l.filter (LoreEntry.active now)).isEmpty = true
      · rw [if_pos hfe]
        have h2 : ((fun k => if k == umo then none else d k) : SessionData) umo
            = none := by simp
        rw [gsa_eq_none _ umo now h2]
        simp [h2]
      · rw [if_neg hfe]
        simp only
        set srt := (l.filter (LoreEntry.active now)).insertionSort prio_le with hsrt
        have h2 : ((fun k =>
            if k == umo then some srt else d k) : SessionData) umo = some srt := by
          simp
        rw [gsa_eq_some _ umo now srt h2]
        have hsne : ¬ (srt.isEmpty = true) := by
          simp only [List.isEmpty_iff, hsrt]
          intro hnil
          have hlen := List.length_insertionSort prio_le (l.filter (LoreEntry.active now))
          rw [hnil] at hlen
          have : l.filter (LoreEntry.active now) = [] :=
            List.eq_nil_of_length_eq_zero hlen.symm
          rw [← List.isEmpty_iff] at this
          exact hfe this
        have hfs : srt.filter (LoreEntry.active now) = srt := by
          refine List.filter_eq_self.mpr fun a ha => ?_
          exact (List.mem_filter.mp ((List.mem_insertionSort prio_le).mp (hsrt ▸ ha))).2
        have hsorted : List.Sorted prio_le srt :=
          List.sorted_insertionSort prio_le _
        rw [if_neg hsne, hfs, if_neg hsne, hsorted.insertionSort_eq]
        refine ⟨rfl, by simp, hsorted⟩

/-- C10: attach stamps the activation time of every entry stored for the
conversation afterwards, including still-active entries that the merge
retained and that were not among the new candidates, so their duration
windows restart at the attach time. -/
theorem attach_restamps (asp : Bool) (d : SessionData) (umo : String)
    (es : List LoreEntry) (now : Int) (l2 : List LoreEntry)
    (h : SessionCache.attach asp d umo es now umo = some l2) :
    ∀ x ∈ l2, x.activated_at = some now := by
  unfold SessionCache.attach at h
  simp only [beq_self_eq_true, if_true, Option.some.injEq] at h
  intro x hx
  rw [← h] at hx
  obtain ⟨y, _, hy⟩ := List.mem_map.mp hx
  rw [← hy]
  simp

/-- Distinct stored priorities after the priority merge of attach. -/
theorem nodup_vals_map_priority (now : Int) (l : List LoreEntry) :
    ((((py_dict_of LoreEntry.priority l).map Prod.snd).map
        (LoreEntry.enter_session now)).map LoreEntry.priority).Nodup := by
  rw [List.map_map, List.map_map]
  have h2 : ∀ p ∈ py_dict_of LoreEntry.priority l,
      ((LoreEntry.priority ∘ LoreEntry.enter_session now) ∘ Prod.snd) p
        = Prod.fst p := by
    intro p hp
    have hk := (py_dict_of_mem LoreEntry.priority l p hp).1
    simp [Function.comp, hk]
  rw [List.map_congr_left h2]
  exact py_dict_of_keys_nodup _ _

/-- C2: with the priority merge of attach, a conversation never stores two
entries of equal priority: the stored priorities are pairwise distinct after
any attach, and activating two distinct same-priority entries one after the
other leaves exactly the later one in the session. PluginConfig is not under
src; per the spec the priority merge is the prescribed behavior, so
allow_same_priority is false here. -/
theorem attach_priority_collision :
    (∀ (d : SessionData) (umo : String) (es : List LoreEntry) (now : Int)
        (l2 : List LoreEntry),
      SessionCache.attach false d umo es now umo = some l2 →
      (l2.map LoreEntry.priority).Nodup)
    ∧ (∀ (d : SessionData) (umo : String) (e1 e2 : LoreEntry) (t1 t2 : Int),
      d umo = none → e1.name ≠ e2.name → e1.priority = e2.priority →
      LoreEntry.active t2 (e1.enter_session t1) = true →
      SessionCache.attach false (SessionCache.attach false d umo [e1] t1)
          umo [e2] t2 umo = some [e2.enter_session t2]) := by
  constructor
  · intro d umo es now l2 h
    unfold SessionCache.attach at h
    simp only [beq_self_eq_true, if_true, Bool.false_eq_true, if_false,
      Option.some.injEq] at h
    rw [← h]
    exact nodup_vals_map_priority now _
  · intro d umo e1 e2 t1 t2 hd hname hprio hactive
    have h1 : SessionCache.attach false d umo [e1] t1 =
        fun k => if k == umo then some [e1.enter_session t1] else d k := by
      funext k
      unfold SessionCache.attach
      rw [gsa_eq_none d umo t1 hd]
      simp [py_dict_update, py_dict_of, py_dict_set]
    rw [h1]
    have hd1 : ((fun k => if k == umo then some [e1.enter_session t1] else d k) :
        SessionData) umo = some [e1.enter_session t1] := by simp
    unfold SessionCache.attach
    rw [gsa_eq_some _ umo t2 [e1.enter_session t1] hd1]
    simp [py_dict_update, py_dict_of, py_dict_set, hactive, hname,
      Ne.symm hname, hprio, List.insertionSort, List.orderedInsert]

/-- C4: the inject counter only grows: on_consume increments it,
enter_session leaves it unchanged, a freshly constructed entry starts at 0,
and after an attach every stored entry either is a candidate copy carrying
count 0 (in particular every entry re-activated by name) or is a retained
still-active old entry whose count the attach did not change. -/
theorem inject_count_lifecycle :
    (∀ e : LoreEntry, e.on_consume.inject_count = e.inject_count + 1)
    ∧ (∀ (now : Int) (e : LoreEntry),
        (e.enter_session now).inject_count = e.inject_count)
    ∧ (∀ (cre : String → Option (String → Bool)) (tmpl : Template)
        (nm : String) (en : Bool) (pr : Int) (sc kw : List String) (pb : ℚ)
        (cr ct : String) (du ti : Int),
        (mk_lore_entry cre tmpl nm en pr sc kw pb cr ct du ti).inject_count = 0)
    ∧ (∀ (asp : Bool) (d : SessionData) (umo : String) (es : List LoreEntry)
        (now : Int) (l2 : List LoreEntry) (x : LoreEntry),
        (∀ c ∈ es, c.inject_count = 0) →
        SessionCache.attach asp d umo es now umo = some l2 → x ∈ l2 →
        (x.name ∈ es.map LoreEntry.name → x.inject_count = 0)
        ∧ (x.inject_count = 0
            ∨ ∃ y ∈ (SessionCache.get_sorted_active d umo now).1,
                x = y.enter_session now)) := by
  refine ⟨fun e => rfl, fun now e => rfl,
    fun cre tmpl nm en pr sc kw pb cr ct du ti => rfl, ?_⟩
  intro asp d umo es now l2 x hces h hx
  unfold SessionCache.attach at h
  simp only [beq_self_eq_true, if_true, Option.some.injEq] at h
  rw [← h] at hx
  obtain ⟨z, hzmem, hzx⟩ := List.mem_map.mp hx
  have hzmerged : z ∈ (py_dict_update
      (py_dict_of LoreEntry.name (SessionCache.get_sorted_active d umo now).1)
      (py_dict_of LoreEntry.name es)).map Prod.snd := by
    cases asp with
    | true => simpa using hzmem
    | false =>
      simp only [Bool.false_eq_true, if_false] at hzmem
      obtain ⟨q, hq, hqz⟩ := List.mem_map.mp hzmem
      have hq2 := (py_dict_of_mem LoreEntry.priority _ q hq).2
      rw [hqz] at hq2
      exact hq2
  obtain ⟨q, hq, hqz⟩ := List.mem_map.mp hzmerged
  have hqmem := py_dict_update_mem _ _ q hq
  constructor
  · intro hxname
    have hxz : x.name = z.name := by
      rw [← hzx]
      rfl
    obtain ⟨c, hc, hcn⟩ := List.mem_map.mp hxname
    have hqkey : q.1 = q.2.name := by
      rcases hqmem.1 with ho | hn
      · exact (py_dict_of_mem LoreEntry.name _ q ho).1
      · exact (py_dict_of_mem LoreEntry.name _ q hn).1
    have hczn : c.name = z.name := by rw [hcn, hxz]
    have hkeys : q.1 ∈ (py_dict_of LoreEntry.name es).map Prod.fst := by
      rw [hqkey, hqz, ← hczn]
      exact py_dict_fold_keys_complete LoreEntry.name es [] c hc
    have hqnew := hqmem.2 hkeys
    have hz_es : z ∈ es := by
      have h2 := (py_dict_of_mem LoreEntry.name es q hqnew).2
      rw [hqz] at h2
      exact h2
    rw [← hzx]
    simpa using hces z hz_es
  · rcases hqmem.1 with ho | hn
    · right
      have hzo := (py_dict_of_mem LoreEntry.name _ q ho).2
      rw [hqz] at hzo
      exact ⟨z, hzo, hzx.symm⟩
    · left
      have hz_es : z ∈ es := by
        have h2 := (py_dict_of_mem LoreEntry.name es q hn).2
        rw [hqz] at h2
        exact h2
      rw [← hzx]
      simpa using hces z hz_es

/-- C7: removing a scope token never empties a nonempty scope; removing the
last remaining token reinstates the admin token, so no removal can turn a
restricted entry into a globally triggerable one. Settled against the
spec-modelled remove_scope (not under src). -/
theorem remove_scope_never_empty (e : LoreEntry) (tok : String)
    (h : e.scope ≠ []) :
    (e.remove_scope tok).1.scope ≠ []
    ∧ (e.scope = [tok] → (e.remove_scope tok).1.scope = ["admin"]) := by
  unfold LoreEntry.remove_scope
  by_cases hmem : tok ∈ e.scope
  · rw [if_pos hmem]
    constructor
    · simp only
      split
      · simp
      · assumption
    · intro hsc
      simp only
      rw [hsc]
      simp
  · rw [if_neg hmem]
    refine ⟨h, fun hsc => absurd ?_ hmem⟩
    rw [hsc]
    simp

/-- C8: schedule eligibility is a one-shot token: on_cron_triggered records
the firing, and once on_activated consumes the flag the entry is outside the
cron window at every time until a new firing. on_activated is invoked from
main.py but not defined under src; it is modelled from the spec as clearing
the flag. -/
theorem cron_flag_one_shot (e : LoreEntry) (t now : Int) :
    (e.on_cron_triggered t).cron_fired_at = some t
    ∧ e.on_activated.cron_fired_at = none
    ∧ LoreEntry.in_cron_window now e.on_activated = false
    ∧ LoreEntry.in_cron_window now (e.on_cron_triggered t).on_activated = false := by
  refine ⟨rfl, rfl, ?_, ?_⟩
  · unfold LoreEntry.in_cron_window
    split
    · rfl
    · rfl
  · unfold LoreEntry.in_cron_window
    split
    · rfl
    · rfl

/-- C6 (amended): construction filters blank keywords and drops patterns the
compiler rejects, without raising; there is no fallback to the entry name,
so the pattern list may end up empty, in which case no text can match. -/
theorem compile_patterns_no_fallback (cre : String → Option (String → Bool))
    (e : LoreEntry) :
    (e.compile_patterns cre).keywords = e.keywords.filter keyword_nonblank
    ∧ (e.compile_patterns cre).patterns
        = (e.keywords.filter keyword_nonblank).filterMap cre
    ∧ ((e.compile_patterns cre).patterns = [] →
        ∀ t, (e.compile_patterns cre).match_keywords t = false) := by
  refine ⟨rfl, rfl, ?_⟩
  intro hp t
  unfold LoreEntry.match_keywords
  rw [hp]
  rfl

/-- C6 counterexample: an entry constructed with a single blank keyword ends
with an empty pattern list and an empty keyword list, refuting the claim
that the pattern list is never empty and falls back to the entry name. -/
theorem compile_patterns_counterexample :
    (mk_lore_entry (fun _ => some (fun _ => true)) .default "A" true 5 []
      [" "] 1 "" "content" 0 0).patterns = []
    ∧ (mk_lore_entry (fun _ => some (fun _ => true)) .default "A" true 5 []
      [" "] 1 "" "content" 0 0).keywords = [] := by
  have hb : keyword_nonblank " " = false := by decide
  constructor
  · simp [mk_lore_entry, LoreEntry.compile_patterns, hb]
  · simp [mk_lore_entry, LoreEntry.compile_patterns, hb]

/-- Concrete pattern compiler for spot checks: everything compiles and
matches every text. -/
def demo_re : String → Option (String → Bool) := fun _ => some (fun _ => true)

/-- Spot-check entry: probability 1, priority 5, duration 60, times 3. -/
def entry_A : LoreEntry :=
  mk_lore_entry demo_re .default "A" true 5 [] ["hello"] 1 "" "alpha" 60 3

/-- Spot-check entry: probability 0, priority 7. -/
def entry_B : LoreEntry :=
  mk_lore_entry demo_re .default "B" true 7 [] ["hello"] 0 "" "beta" 60 3

/-- Spot-check entry sharing the priority of entry_A under another name. -/
def entry_C : LoreEntry :=
  mk_lore_entry demo_re .default "C" true 5 [] ["hi"] 1 "" "gamma" 60 3

/-- Spot-check entry with a single scope token. -/
def entry_scoped : LoreEntry :=
  mk_lore_entry demo_re .default "S" true 9 ["g1"] ["x"] 1 "" "sigma" 0 0

/-- Spot-check entry whose only keyword is blank. -/
def entry_blank : LoreEntry :=
  mk_lore_entry demo_re .default "A" true 5 [] [" "] 1 "" "content" 0 0

/-- Spot-check cache: one conversation holding entry_A activated at time 0. -/
def demo_cache : SessionData :=
  fun k => if k == "chat" then some [entry_A.enter_session 0] else none

/-- Spot-check cache: a session copy of entry_A that has been consumed once. -/
def demo_used : SessionData :=
  fun k => if k == "c4" then some [(entry_A.enter_session 0).on_consume] else none

theorem check_activate_gate_order_spot :
    (entry_A.satisfy_probability (fun _ => 0)).1 = true
    ∧ (entry_B.satisfy_probability (fun _ => 0)).1 = false :=
  ⟨(check_activate_gate_order entry_A none none none none false 0
      (fun _ => 0)).2.2.1 (by decide),
   (check_activate_gate_order entry_B none none none none false 0
      (fun _ => 0)).2.2.2 (by decide)⟩

theorem attach_priority_collision_spot :
    SessionCache.attach false
        (SessionCache.attach false (fun _ => none) "chat" [entry_A] 0)
        "chat" [entry_C] 10 "chat" = some [entry_C.enter_session 10] :=
  attach_priority_collision.2 (fun _ => none) "chat" entry_A entry_C 0 10 rfl
    (by decide) (by decide) (by decide)

theorem get_sorted_active_expiry_spot :
    (SessionCache.get_sorted_active demo_cache "chat" 100).2 "chat" = none :=
  (get_sorted_active_expiry demo_cache "chat" 100 0 [entry_A.enter_session 0]
      (entry_A.enter_session 0) rfl (by simp) (by decide) rfl (by decide)).2.2
    (by decide)

theorem inject_count_lifecycle_spot :
    (entry_A.enter_session 5).inject_count = 0 :=
  (inject_count_lifecycle.2.2.2 false demo_used "c4" [entry_A] 5
      [entry_A.enter_session 5] (entry_A.enter_session 5)
      (by decide) rfl (by simp)).1 (by decide)

theorem compile_patterns_no_fallback_spot :
    (entry_blank.compile_patterns demo_re).match_keywords "anything" = false :=
  (compile_patterns_no_fallback demo_re entry_blank).2.2 rfl "anything"

theorem remove_scope_never_empty_spot :
    (entry_scoped.remove_scope "g1").1.scope = ["admin"] :=
  (remove_scope_never_empty entry_scoped "g1" (by decide)).2 (by decide)

theorem attach_restamps_spot :
    (((SessionCache.attach false demo_cache "chat" [entry_B] 10) "chat").getD
      []).all (fun x => x.activated_at == some 10) = true := by
  rw [List.all_eq_true]
  intro x hx
  have h := attach_restamps false demo_cache "chat" [entry_B] 10
      (((SessionCache.attach false demo_cache "chat" [entry_B] 10) "chat").getD [])
      rfl x hx
  simp [h]

/-- A lorefile record: one dict of the persisted entry fields; a field is
none when the key is absent from the dict. -/
structure LoreDict where
  template : Option String
  template_key : Option String
  name : Option String
  enabled : Option Bool
  priority : Option Int
  scope : Option (List String)
  keywords : Option (List String)
  probability : Option ℚ
  cron : Option String
  content : Option String
  duration : Option Int
  times : Option Int

/-- Python `a or b` over an optional string: none and the empty string fall
through to the alternative. -/
def py_or_str (o : Option String) (alt : String) : String :=
  match o with
  | none => alt
  | some s => if s == "" then alt else s

/-- Template.from_data: read template, fall back to the legacy key, then to
the default value; an unknown value is the ValueError branch (none). -/
def template_from_data (d : LoreDict) : Option Template :=
  Template.of_string (py_or_str d.template (py_or_str d.template_key "default"))

/-- Lorebook._resolve_unique_name: first free name among nm, nm_2, nm_3, ...
The source loop scans unboundedly; among book.length + 1 candidates at least
one is free, so this bounded scan returns the same first free name. -/
def resolve_unique_name (book : List LoreEntry) (nm : String) : String :=
  if book.all (fun e => !(e.name == nm)) then nm
  else
    (((List.range (book.length + 1)).map
        (fun i => nm ++ "_" ++ toString (i + 2))).find?
      (fun cand => book.all (fun e => !(e.name == cand)))).getD nm

/-- Lorebook._resolve_priority: an explicit priority wins; otherwise the
first unused priority strictly above the template base. The source loop
scans unboundedly; among book.length + 1 consecutive candidates at least one
is unused, so this bounded scan returns the same first free priority. -/
def resolve_priority (book : List LoreEntry) (tmpl : Template)
    (d : LoreDict) : Int :=
  match d.priority with
  | some p => p
  | none =>
    let base := tmpl.def_priority
    let used := book.map LoreEntry.priority
    (((List.range (book.length + 1)).map (fun i => base + 1 + (i : Int))).find?
      (fun p => !(used.contains p))).getD (base + 1)

/-- Lorebook.add_entry: require truthy name and content, resolve the unique
name, parse the template, resolve every field as explicit value over
template default over fallback, and construct the entry; none models the
ValueError paths. -/
def add_entry (cre : String → Option (String → Bool)) (book : List LoreEntry)
    (data : LoreDict) : Option LoreEntry :=
  if !opt_truthy data.name then none
  else if !opt_truthy data.content then none
  else
    match template_from_data data with
    | none => none
    | some tmpl =>
      some (mk_lore_entry cre tmpl
        (resolve_unique_name book (data.name.getD ""))
        (data.enabled.getD true)
        (resolve_priority book tmpl data)
        (data.scope.getD [])
        (data.keywords.getD tmpl.def_keywords)
        (data.probability.getD 1)
        (data.cron.getD "")
        (data.content.getD "")
        (data.duration.getD tmpl.def_duration)
        (data.times.getD tmpl.def_times))

/-- LoreFile._entry_to_dict: the record written on export. The cron key is
absent from this dict, although LoreEntry.to_dict and the documented record
shape both carry it. -/
def entry_to_dict (e : LoreEntry) : LoreDict :=
  { template := some e.template.str, template_key := none,
    name := some e.name, enabled := some e.enabled,
    priority := some e.priority, scope := some e.scope,
    keywords := some e.keywords, probability := some e.probability,
    cron := none, content := some e.content,
    duration := some e.duration, times := some e.times }

/-- Entry used for the round-trip check: every persisted field is set, with
a nonempty cron schedule. -/
def round_entry : LoreEntry :=
  mk_lore_entry demo_re .default "A" true 5 ["admin"] ["hello"] (1/2)
    "0 0 * * *" "payload" 60 3

/-- C5: exporting an entry through the lorefile dict and importing it back
preserves name, enabled, priority, scope, keywords, probability, content,
duration and times, but not the schedule: the export dict lacks the cron
key, so the imported entry has an empty cron where the original had a
nonempty one — the claimed ten-field round-trip fails on cron. -/
theorem lorefile_roundtrip_drops_cron :
    (add_entry demo_re [] (entry_to_dict round_entry)).map LoreEntry.cron
      = some ""
    ∧ round_entry.cron = "0 0 * * *"
    ∧ ¬ ((add_entry demo_re [] (entry_to_dict round_entry)).map LoreEntry.cron
      = some round_entry.cron)
    ∧ (add_entry demo_re [] (entry_to_dict round_entry)).map LoreEntry.name
      = some round_entry.name
    ∧ (add_entry demo_re [] (entry_to_dict round_entry)).map LoreEntry.enabled
      = some round_entry.enabled
    ∧ (add_entry demo_re [] (entry_to_dict round_entry)).map LoreEntry.priority
      = some round_entry.priority
    ∧ (add_entry demo_re [] (entry_to_dict round_entry)).map LoreEntry.scope
      = some round_entry.scope
    ∧ (add_entry demo_re [] (entry_to_dict round_entry)).map LoreEntry.keywords
      = some round_entry.keywords
    ∧ (add_entry demo_re [] (entry_to_dict round_entry)).map
        LoreEntry.probability = some round_entry.probability
    ∧ (add_entry demo_re [] (entry_to_dict round_entry)).map LoreEntry.content
      = some round_entry.content
    ∧ (add_entry demo_re [] (entry_to_dict round_entry)).map LoreEntry.duration
      = some round_entry.duration
    ∧ (add_entry demo_re [] (entry_to_dict round_entry)).map LoreEntry.times
      = some round_entry.times := by
  refine ⟨rfl, rfl, by decide, rfl, rfl, rfl, rfl, rfl, rfl, rfl, rfl, rfl⟩
